import Mathlib

/-
Shallow embedding of the Inbox Intelligence backend (src/main.py).

The embedded parts are the ones the verified claims are about:
  - `categorize_with_ai` (src/main.py lines 52-112): the ID-mapping
    categorization engine, embedded with the language-model call abstracted
    into an oracle value `ModelResult` (it raises, returns unparsable text,
    or returns a parsed JSON object mapping category keys to arrays of
    ordinal-ID values).  The returned Bool records whether the outbound
    model call was made.
  - the fetch-and-count loop of `callback` (src/main.py lines 134-168),
    embedded with each per-message pair of provider reads abstracted into
    an `Option RawData` (`none` = some exception was raised while fetching
    that message, so the `except: continue` arm runs).
  - `get_result` (src/main.py lines 180-182).

Python exceptions inside the engine's `try` are modelled by `Option`
failure; the enclosing `except Exception` turns a failure into the empty
result, so the embedded functions are total, which is how "no exception
escapes" is expressed here.
-/

/-- One value of a category's array in the model's parsed JSON reply.
`num n` is a JSON integer; `str s` a JSON string; `other` any JSON value on
which Python's `int()` raises a TypeError (array, object, null).  The only
use the source makes of such a value is `int(eid)`, so a value is embedded
by how `int()` treats it. -/
inductive JsonVal where
  | num (n : Int)
  | str (s : String)
  | other
deriving DecidableEq

/-- The characters Python's `str.strip()` removes (ASCII whitespace;
non-ASCII unicode whitespace does not occur in this pipeline's data and is
not modelled). -/
def isPySpace (c : Char) : Bool :=
  c = ' ' || c = '\t' || c = '\n' || c = '\x0d' || c = '\x0b' || c = '\x0c'

/-- `str.strip()` on the character list of a string. -/
def pyStripList (l : List Char) : List Char :=
  ((l.dropWhile isPySpace).reverse.dropWhile isPySpace).reverse

/-- Digit run of a Python integer literal: at least one character, all
ASCII digits, read in base 10; anything else raises (`none`). -/
def parseDigitsAux : List Char → Nat → Option Nat
  | [], acc => some acc
  | c :: rest, acc =>
      if c.isDigit then parseDigitsAux rest (acc * 10 + (c.toNat - 48)) else none

/-- See `parseDigitsAux`; the empty run is rejected. -/
def parseDigits : List Char → Option Nat
  | [] => none
  | l => parseDigitsAux l 0

/-- Python `int(s)` on a string: surrounding whitespace is stripped, an
optional single sign is allowed, the rest must be a non-empty digit run;
otherwise a ValueError is raised (`none`).  (Digit-grouping underscores and
non-ASCII digits, which CPython also accepts, do not occur in model replies
and are not modelled.) -/
def pyIntOfString (s : String) : Option Int :=
  match pyStripList s.data with
  | '-' :: rest => (parseDigits rest).map (fun n => -(n : Int))
  | '+' :: rest => (parseDigits rest).map (fun n => (n : Int))
  | t => (parseDigits t).map (fun n => (n : Int))

/-- Python `int(eid)` for `eid` a parsed JSON value (src/main.py line 104):
an integer converts to itself, a numeric string is parsed, anything else
raises (`none`). -/
def pyInt : JsonVal → Option Int
  | JsonVal.num n => some n
  | JsonVal.str s => pyIntOfString s
  | JsonVal.other => none

/-- The EmailRecord produced by the fetch loop (src/main.py lines 157-162,
168): the dict with keys id, from, subject, snippet, sender_count.
`sender_count` is 0 until the second pass attaches the real count.  (Such a
dict is non-empty, hence truthy, so `if original:` on line 105 is a pure
presence check in the embedding.) -/
structure EmailRecord where
  id : String
  from_ : String
  subject : String
  snippet : String
  sender_count : Nat
deriving DecidableEq

/-- `email_map = {i: e for i, e in enumerate(emails, 1)}` followed by
`.get` (src/main.py lines 57 and 104): ordinal `n` resolves to the n-th
record when `1 ≤ n ≤ len(emails)`, else to nothing. -/
def email_map (emails : List EmailRecord) : Int → Option EmailRecord
  | Int.ofNat (k + 1) => emails[k]?
  | _ => none

/-- The inner loop of src/main.py lines 103-106 over one category's array:
each value is converted with `int(eid)` (a conversion failure is an
exception that aborts the whole `try`, hence `none` overall); a converted
ordinal missing from `email_map` is skipped; a resolved record is appended. -/
def resolve_ids (em : Int → Option EmailRecord) : List JsonVal → Option (List EmailRecord)
  | [] => some []
  | v :: rest => do
      let n ← pyInt v
      match em n with
      | some r => do
          let tail ← resolve_ids em rest
          pure (r :: tail)
      | none => resolve_ids em rest

/-- The outer loop of src/main.py lines 100-107: one output entry per
category key of the parsed reply, in reply order; a failure anywhere aborts
the whole `try`. -/
def build_output (em : Int → Option EmailRecord) :
    List (String × List JsonVal) → Option (List (String × List EmailRecord))
  | [] => some []
  | (c, ids) :: rest => do
      let recs ← resolve_ids em ids
      let tail ← build_output em rest
      pure ((c, recs) :: tail)

/-- The observable behaviour of the one model call plus `json.loads`:
the request raises, or the reply text fails to parse as a JSON object, or
it parses into a mapping from category keys to arrays of values.  (JSON
object keys are distinct.) -/
inductive ModelResult where
  | raises
  | unparsable
  | reply (r : List (String × List JsonVal))
deriving DecidableEq

/-- `categorize_with_ai` (src/main.py lines 52-112).  Returns the
CategoryAssignment together with a Bool recording whether the outbound
model call happened: the empty-input guard on lines 53-54 runs before the
call; every exception path inside the `try` returns the empty assignment
(lines 110-112). -/
def categorize_with_ai (emails : List EmailRecord) (model : ModelResult) :
    List (String × List EmailRecord) × Bool :=
  if emails.isEmpty then ([], false)
  else
    match model with
    | ModelResult.raises => ([], true)
    | ModelResult.unparsable => ([], true)
    | ModelResult.reply r =>
        match build_output (email_map emails) r with
        | none => ([], true)
        | some out => (out, true)

/-- What the two per-message provider reads of src/main.py lines 140-151
yield once the dict defaults are applied: `headers` is the payload's
header list, defaulting to `[]` when payload or headers are absent, and
`snippet` is `snippet_res.get("snippet", "")`. -/
structure RawData where
  headers : List (String × String)
  snippet : String
deriving DecidableEq

/-- One entry of the provider's message list (src/main.py line 132)
together with the outcome of fetching it: `none` means some exception was
raised while fetching or extracting this message, so the
`except: continue` arm on lines 163-164 runs. -/
structure GmailMsg where
  msgId : String
  fetched : Option RawData
deriving DecidableEq

/-- `next((h["value"] for h in headers if h["name"] == name), default)`
(src/main.py lines 149-150): the value of the first header with the given
name, or the default. -/
def findHeader (headers : List (String × String)) (name default : String) : String :=
  match headers.find? (fun h => h.fst = name) with
  | some h => h.snd
  | none => default

/-- `sender.split("<")[0].strip().replace('"', '')` (src/main.py line 154):
keep the part before the first angle bracket, strip surrounding whitespace,
then delete every double-quote character. -/
def strip_sender (sender : String) : String :=
  String.mk ((pyStripList (sender.data.takeWhile (fun c => c ≠ '<'))).filter
    (fun c => c ≠ '\x22'))

/-- The dict appended on src/main.py lines 157-162 for one successfully
fetched message (`sender_count` is attached later, in the second pass). -/
def mk_record (m : GmailMsg) (d : RawData) : EmailRecord :=
  { id := m.msgId
  , from_ := strip_sender (findHeader d.headers "From" "Unknown")
  , subject := findHeader d.headers "Subject" "(No Subject)"
  , snippet := d.snippet
  , sender_count := 0 }

/-- `sender_counter[sender_simple] += 1` on a defaultdict(int)
(src/main.py lines 135 and 155). -/
def bump (ctr : String → Nat) (s : String) : String → Nat :=
  fun t => if t = s then ctr t + 1 else ctr t

/-- The fetch-and-count loop (src/main.py lines 138-164): per message,
either the `except` arm skips it, or its record is appended and the counter
for its stripped sender is bumped.  Returns the extracted records and the
final counter. -/
def fetch_pass : List GmailMsg → (String → Nat) → List EmailRecord × (String → Nat)
  | [], ctr => ([], ctr)
  | m :: rest, ctr =>
      match m.fetched with
      | none => fetch_pass rest ctr
      | some d =>
          let r := mk_record m d
          let p := fetch_pass rest (bump ctr r.from_)
          (r :: p.fst, p.snd)

/-- The whole fetch stage: the loop starting from the empty counter,
followed by the second pass `email["sender_count"] =
sender_counter[email["from"]]` (src/main.py lines 166-168). -/
def extract_emails (msgs : List GmailMsg) : List EmailRecord :=
  let p := fetch_pass msgs (fun _ => 0)
  p.fst.map (fun e => { e with sender_count := p.snd e.from_ })

/-- The mutable session slot the routes share (src/main.py lines 31-34);
the opaque credential handle is irrelevant to the claims and omitted. -/
structure UserSession where
  last_result : List (String × List EmailRecord)
deriving DecidableEq

/-- The JSON body `/result` responds with. -/
structure ResultResponse where
  status : String
  categories : List (String × List EmailRecord)
deriving DecidableEq

/-- `get_result` (src/main.py lines 180-182): always status "success",
with whatever is currently stored. -/
def get_result (s : UserSession) : ResultResponse :=
  { status := "success", categories := s.last_result }

/-- The per-entry effect of lines 103-106 when no exception occurs on the
entry: convert, look up, keep or drop. -/
def resolve_one (em : Int → Option EmailRecord) (v : JsonVal) : Option EmailRecord :=
  (pyInt v).bind em

/-- A successful run of the inner loop keeps exactly the entries that
convert and resolve, in order. -/
theorem resolve_ids_some_eq (em : Int → Option EmailRecord) :
    ∀ (ids : List JsonVal) (l : List EmailRecord), resolve_ids em ids = some l →
      l = ids.filterMap (resolve_one em) := by
  intro ids
  induction ids with
  | nil =>
      intro l h
      simp [resolve_ids] at h
      simp [h.symm]
  | cons v rest ih =>
      intro l h
      cases hv : pyInt v with
      | none => simp [resolve_ids, hv] at h
      | some n =>
          cases hn : em n with
          | none =>
              simp [resolve_ids, hv, hn] at h
              simpa [List.filterMap_cons, resolve_one, hv, hn] using ih l h
          | some r =>
              simp [resolve_ids, hv, hn] at h
              cases hr : resolve_ids em rest with
              | none => simp [hr] at h
              | some tl =>
                  simp [hr] at h
                  simp [List.filterMap_cons, resolve_one, hv, hn, h.symm, ih tl hr]

/-- A conversion failure anywhere in the array makes the inner loop raise. -/
theorem resolve_ids_eq_none (em : Int → Option EmailRecord) :
    ∀ ids : List JsonVal, (∃ v ∈ ids, pyInt v = none) → resolve_ids em ids = none := by
  intro ids
  induction ids with
  | nil => rintro ⟨v, hv, _⟩; cases hv
  | cons w rest ih =>
      rintro ⟨v, hv, hnone⟩
      rcases List.mem_cons.mp hv with h1 | h1
      · subst h1; simp [resolve_ids, hnone]
      · cases hw : pyInt w with
        | none => simp [resolve_ids, hw]
        | some n =>
            have hrest := ih ⟨v, h1, hnone⟩
            cases hn : em n with
            | none => simp [resolve_ids, hw, hn, hrest]
            | some r => simp [resolve_ids, hw, hn, hrest]

/-- When every entry of the array converts, the inner loop succeeds with
exactly the resolvable entries. -/
theorem resolve_ids_all_some (em : Int → Option EmailRecord) :
    ∀ ids : List JsonVal, (∀ v ∈ ids, (pyInt v).isSome) →
      resolve_ids em ids = some (ids.filterMap (resolve_one em)) := by
  intro ids
  induction ids with
  | nil => intro _; rfl
  | cons v rest ih =>
      intro hall
      have hv : (pyInt v).isSome := hall v (List.mem_cons_self v rest)
      rcases Option.isSome_iff_exists.mp hv with ⟨n, hn⟩
      have hrest := ih (fun w hw => hall w (List.mem_cons_of_mem v hw))
      cases he : em n with
      | none => simp [resolve_ids, hn, he, hrest, List.filterMap_cons, resolve_one]
      | some r => simp [resolve_ids, hn, he, hrest, List.filterMap_cons, resolve_one]

/-- A successful run of the outer loop produces one entry per reply
category, each holding exactly the resolvable entries of its array. -/
theorem build_output_some_eq (em : Int → Option EmailRecord) :
    ∀ (reply : List (String × List JsonVal)) (out : List (String × List EmailRecord)),
      build_output em reply = some out →
      out = reply.map (fun p => (p.fst, p.snd.filterMap (resolve_one em))) := by
  intro reply
  induction reply with
  | nil =>
      intro out h
      simp [build_output] at h
      simp [h.symm]
  | cons p rest ih =>
      intro out h
      obtain ⟨c, ids⟩ := p
      cases hr : resolve_ids em ids with
      | none => simp [build_output, hr] at h
      | some recs =>
          cases hb : build_output em rest with
          | none => simp [build_output, hr, hb] at h
          | some tl =>
              simp [build_output, hr, hb] at h
              simp [h.symm, ih tl hb, resolve_ids_some_eq em ids recs hr]

/-- A conversion failure anywhere in the reply makes the whole `try` raise. -/
theorem build_output_eq_none (em : Int → Option EmailRecord) :
    ∀ reply : List (String × List JsonVal),
      (∃ p ∈ reply, ∃ v ∈ p.snd, pyInt v = none) → build_output em reply = none := by
  intro reply
  induction reply with
  | nil => rintro ⟨p, hp, _⟩; cases hp
  | cons q rest ih =>
      rintro ⟨p, hp, hv⟩
      obtain ⟨c, ids⟩ := q
      rcases List.mem_cons.mp hp with h1 | h1
      · subst h1
        simp [build_output, resolve_ids_eq_none em ids hv]
      · cases hr : resolve_ids em ids with
        | none => simp [build_output, hr]
        | some recs => simp [build_output, hr, ih ⟨p, h1, hv⟩]

/-- When every id value in the reply converts, the whole `try` succeeds. -/
theorem build_output_all_some (em : Int → Option EmailRecord) :
    ∀ reply : List (String × List JsonVal),
      (∀ p ∈ reply, ∀ v ∈ p.snd, (pyInt v).isSome) →
      build_output em reply =
        some (reply.map (fun p => (p.fst, p.snd.filterMap (resolve_one em)))) := by
  intro reply
  induction reply with
  | nil => intro _; rfl
  | cons q rest ih =>
      intro hall
      obtain ⟨c, ids⟩ := q
      have h1 := resolve_ids_all_some em ids (hall (c, ids) (List.mem_cons_self _ _))
      have h2 := ih (fun p hp => hall p (List.mem_cons_of_mem _ hp))
      simp [build_output, h1, h2]

/-- An ordinal that resolves denotes a record of the input list. -/
theorem email_map_mem (emails : List EmailRecord) (n : Int) (r : EmailRecord)
    (h : email_map emails n = some r) : r ∈ emails := by
  cases n with
  | ofNat k =>
      cases k with
      | zero => simp [email_map] at h
      | succ j => exact List.getElem?_mem h
  | negSucc k => simp [email_map] at h

/-- Over a duplicate-free input list, distinct ordinals resolve to
distinct records. -/
theorem email_map_inj (emails : List EmailRecord) (hnd : emails.Nodup)
    (n m : Int) (r : EmailRecord)
    (h1 : email_map emails n = some r) (h2 : email_map emails m = some r) : n = m := by
  cases n with
  | ofNat k =>
      cases k with
      | zero => simp [email_map] at h1
      | succ j =>
          cases m with
          | ofNat k2 =>
              cases k2 with
              | zero => simp [email_map] at h2
              | succ j2 =>
                  simp only [email_map] at h1 h2
                  have hj : j < emails.length := by
                    rcases List.getElem?_eq_some_iff.mp h1 with ⟨hlt, _⟩
                    exact hlt
                  have hjj : j = j2 := List.getElem?_inj hj hnd (h1.trans h2.symm)
                  rw [hjj]
          | negSucc k2 => simp [email_map] at h2
  | negSucc k => simp [email_map] at h1

/-- The records the loop extracts are exactly the successfully fetched
messages' records, in provider-list order, independent of the counter. -/
theorem fetch_pass_fst (msgs : List GmailMsg) :
    ∀ ctr : String → Nat,
      (fetch_pass msgs ctr).fst =
        msgs.filterMap (fun m => (m.fetched).map (mk_record m)) := by
  induction msgs with
  | nil => intro ctr; rfl
  | cons m rest ih =>
      intro ctr
      cases hm : m.fetched with
      | none => simp [fetch_pass, hm, ih]
      | some d => simp [fetch_pass, hm, ih]

/-- The final counter value for a sender is its starting value plus the
number of extracted records carrying that stripped sender. -/
theorem fetch_pass_snd (msgs : List GmailMsg) :
    ∀ (ctr : String → Nat) (s : String),
      (fetch_pass msgs ctr).snd s =
        ctr s + (fetch_pass msgs ctr).fst.countP (fun e => e.from_ = s) := by
  induction msgs with
  | nil => intro ctr s; simp [fetch_pass]
  | cons m rest ih =>
      intro ctr s
      cases hm : m.fetched with
      | none => simp [fetch_pass, hm, ih]
      | some d =>
          have hrw := ih (bump ctr (mk_record m d).from_) s
          have hfst := fetch_pass_fst rest
          simp only [fetch_pass, hm] at *
          rw [hrw]
          simp only [List.countP_cons]
          unfold bump
          by_cases hs : (mk_record m d).from_ = s
          · simp [hs]; omega
          · simp [hs]
            intro heq
            exact absurd heq.symm hs

/-- A concrete record used to instantiate the verified properties. -/
def rec_a : EmailRecord :=
  { id := "m1", from_ := "Alice", subject := "Interview", snippet := "see you",
    sender_count := 1 }

/-- A second concrete record. -/
def rec_b : EmailRecord :=
  { id := "m2", from_ := "Bob", subject := "Update", snippet := "",
    sender_count := 1 }

/-- C5: for the empty input sequence the engine returns the empty
CategoryAssignment and the model-call flag stays false: no outbound call is
made (src/main.py lines 53-54 run before the request). -/
theorem categorize_empty_input_no_model_call (model : ModelResult) :
    categorize_with_ai [] model = ([], false) := rfl

/-- C3: for every input batch, whether the model call raises, the reply
text fails to parse, or processing the parsed reply raises, the engine
returns the empty CategoryAssignment; the embedded engine is a total
function, which is the form "no exception escapes" takes here. -/
theorem categorize_failure_returns_empty (emails : List EmailRecord) (model : ModelResult)
    (h : model = ModelResult.raises ∨ model = ModelResult.unparsable ∨
      ∃ r, model = ModelResult.reply r ∧ build_output (email_map emails) r = none) :
    (categorize_with_ai emails model).fst = [] := by
  unfold categorize_with_ai
  rcases h with h | h | ⟨r, hr, hb⟩
  · subst h; by_cases he : emails.isEmpty <;> simp [he]
  · subst h; by_cases he : emails.isEmpty <;> simp [he]
  · subst hr; by_cases he : emails.isEmpty <;> simp [he, hb]

/-- C3 witness: a raising model call over a one-record batch yields the
empty assignment. -/
theorem categorize_failure_returns_empty_witness :
    (categorize_with_ai [rec_a] ModelResult.raises).fst = [] :=
  categorize_failure_returns_empty [rec_a] ModelResult.raises (Or.inl rfl)

/-- C6: an ordinal absent from the ordinal-to-record mapping is dropped:
the output is either empty (an exception path) or holds, per reply
category, exactly the entries whose converted ordinal resolves — never a
null or fabricated entry; and the spec's scenario: over any 2-record batch,
a category listing ordinals 1 and 99 ends up with exactly the first record. -/
theorem absent_ordinal_dropped (emails : List EmailRecord)
    (reply : List (String × List JsonVal)) :
    ((categorize_with_ai emails (ModelResult.reply reply)).fst = [] ∨
      (categorize_with_ai emails (ModelResult.reply reply)).fst =
        reply.map (fun p => (p.fst, p.snd.filterMap (resolve_one (email_map emails)))))
    ∧ ∀ a b : EmailRecord,
        categorize_with_ai [a, b]
            (ModelResult.reply [("Action Required", [JsonVal.num 1, JsonVal.num 99])])
          = ([("Action Required", [a])], true) := by
  constructor
  · unfold categorize_with_ai
    by_cases he : emails.isEmpty
    · simp [he]
    · cases hb : build_output (email_map emails) reply with
      | none => simp [he, hb]
      | some out =>
          right
          simpa [he, hb] using build_output_some_eq (email_map emails) reply out hb
  · intro a b; rfl

/-- C7: every record that appears in some category of the engine's output
for a non-empty batch is a member of the input batch; no record is
fabricated. -/
theorem output_records_from_input (emails : List EmailRecord) (model : ModelResult)
    (cat : String) (recs : List EmailRecord) (r : EmailRecord)
    (hne : emails ≠ [])
    (hmem : (cat, recs) ∈ (categorize_with_ai emails model).fst)
    (hr : r ∈ recs) : r ∈ emails := by
  have he : emails.isEmpty = false := by
    cases emails with
    | nil => exact absurd rfl hne
    | cons a l => rfl
  cases model with
  | raises => simp [categorize_with_ai, he] at hmem
  | unparsable => simp [categorize_with_ai, he] at hmem
  | reply reply =>
      cases hb : build_output (email_map emails) reply with
      | none => simp [categorize_with_ai, he, hb] at hmem
      | some out =>
          have hout : (categorize_with_ai emails (ModelResult.reply reply)).fst = out := by
            simp [categorize_with_ai, he, hb]
          rw [hout, build_output_some_eq (email_map emails) reply out hb] at hmem
          rcases List.mem_map.mp hmem with ⟨p, _, hp⟩
          have hrecs : recs = p.snd.filterMap (resolve_one (email_map emails)) :=
            (congrArg Prod.snd hp).symm
          rw [hrecs] at hr
          rcases List.mem_filterMap.mp hr with ⟨v, _, hv⟩
          rcases Option.bind_eq_some.mp hv with ⟨n, _, hn⟩
          exact email_map_mem emails n r hn

/-- C7 witness: over the batch [rec_a], a reply putting ordinal 1 into
category "A" yields only records of the batch. -/
theorem output_records_from_input_witness : rec_a ∈ [rec_a] :=
  output_records_from_input [rec_a] (ModelResult.reply [("A", [JsonVal.num 1])])
    "A" [rec_a] rec_a (by decide) (by decide) (by decide)

/-- C1 counterexample: over the one-record batch [rec_a], a reply whose
category "A" lists the non-numeric ordinal "x" followed by the valid
ordinal 1 yields the empty CategoryAssignment — the valid entry 1 does not
appear in its category, so the claim that surrounding entries still resolve
is false on the code (int("x") raises and the top-level handler discards
everything). -/
theorem nonnumeric_ordinal_cex :
    categorize_with_ai [rec_a]
        (ModelResult.reply [("A", [JsonVal.str "x", JsonVal.num 1])])
      = ([], true) := by decide

/-- C1 amended: no error escapes in either case, but the two kinds of bad
ordinal differ: a non-numeric ordinal anywhere in the reply makes the
engine return the empty CategoryAssignment (all entries are lost), while a
reply whose ordinals all convert keeps, per category, exactly the entries
whose ordinal resolves — out-of-range ordinals are dropped and every other
valid entry still resolves to its original record. -/
theorem categorize_nonnumeric_vs_numeric (emails : List EmailRecord)
    (reply : List (String × List JsonVal)) (hne : emails ≠ []) :
    ((∃ p ∈ reply, ∃ v ∈ p.snd, pyInt v = none) →
        categorize_with_ai emails (ModelResult.reply reply) = ([], true))
    ∧ ((∀ p ∈ reply, ∀ v ∈ p.snd, (pyInt v).isSome) →
        categorize_with_ai emails (ModelResult.reply reply) =
          (reply.map (fun p => (p.fst, p.snd.filterMap (resolve_one (email_map emails)))),
            true)) := by
  have he : emails.isEmpty = false := by
    cases emails with
    | nil => exact absurd rfl hne
    | cons a l => rfl
  constructor
  · intro hbad
    simp [categorize_with_ai, he, build_output_eq_none (email_map emails) reply hbad]
  · intro hgood
    simp [categorize_with_ai, he, build_output_all_some (email_map emails) reply hgood]

/-- C1 amended witness: a non-numeric ordinal empties the result; an
all-numeric reply with the out-of-range ordinal 5 drops only that entry. -/
theorem categorize_nonnumeric_vs_numeric_witness :
    categorize_with_ai [rec_a]
        (ModelResult.reply [("B", [JsonVal.str "oops", JsonVal.num 1])]) = ([], true)
    ∧ categorize_with_ai [rec_a]
        (ModelResult.reply [("A", [JsonVal.num 1, JsonVal.num 5])])
      = ([("A", [rec_a])], true) :=
  ⟨(categorize_nonnumeric_vs_numeric [rec_a] _ (by decide)).1 (by decide),
   ((categorize_nonnumeric_vs_numeric [rec_a] _ (by decide)).2 (by decide)).trans (by decide)⟩

/-- C2 counterexample: over the one-record batch [rec_a], the reply listing
ordinal 1 under both "A" and "B" inserts rec_a into both categories: the
engine never deduplicates across categories, so the claim is false on the
code. -/
theorem duplicate_ordinal_cex :
    ("A", [rec_a]) ∈ (categorize_with_ai [rec_a]
        (ModelResult.reply [("A", [JsonVal.num 1]), ("B", [JsonVal.num 1])])).fst
    ∧ ("B", [rec_a]) ∈ (categorize_with_ai [rec_a]
        (ModelResult.reply [("A", [JsonVal.num 1]), ("B", [JsonVal.num 1])])).fst := by
  decide

/-- C2 amended: over a duplicate-free batch, no record lands in two
categories provided the reply itself lists disjoint converted ordinals
across categories; when the same ordinal occurs under two categories the
record IS inserted into both (see the counterexample). -/
theorem categorize_disjoint_ids_no_double_insert (emails : List EmailRecord)
    (reply : List (String × List JsonVal)) (hnd : emails.Nodup)
    (hdisj : reply.Pairwise (fun p q => ∀ n : Int,
        n ∈ p.snd.filterMap pyInt → n ∉ q.snd.filterMap pyInt)) :
    (categorize_with_ai emails (ModelResult.reply reply)).fst.Pairwise
      (fun a b => ∀ r : EmailRecord, r ∈ a.snd → r ∉ b.snd) := by
  by_cases he : emails.isEmpty
  · simp [categorize_with_ai, he]
  · cases hb : build_output (email_map emails) reply with
    | none => simp [categorize_with_ai, he, hb]
    | some out =>
        have hout : (categorize_with_ai emails (ModelResult.reply reply)).fst = out := by
          simp [categorize_with_ai, he, hb]
        rw [hout, build_output_some_eq (email_map emails) reply out hb]
        rw [List.pairwise_map]
        refine hdisj.imp ?_
        intro p q hpq r hrp hrq
        rcases List.mem_filterMap.mp hrp with ⟨v, hvp, hv⟩
        rcases Option.bind_eq_some.mp hv with ⟨n, hvn, hn⟩
        rcases List.mem_filterMap.mp hrq with ⟨w, hwq, hw⟩
        rcases Option.bind_eq_some.mp hw with ⟨n2, hwn, hn2⟩
        have hne : n = n2 := email_map_inj emails hnd n n2 r hn hn2
        have hmem1 : n ∈ p.snd.filterMap pyInt := List.mem_filterMap.mpr ⟨v, hvp, hvn⟩
        have hmem2 : n2 ∈ q.snd.filterMap pyInt := List.mem_filterMap.mpr ⟨w, hwq, hwn⟩
        exact hpq n hmem1 (hne ▸ hmem2)

/-- C2 amended witness: over the duplicate-free batch [rec_a, rec_b] and a
reply putting ordinal 1 under "A" and ordinal 2 under "B", the categories
are pairwise disjoint. -/
theorem categorize_disjoint_ids_no_double_insert_witness :
    (categorize_with_ai [rec_a, rec_b]
        (ModelResult.reply [("A", [JsonVal.num 1]), ("B", [JsonVal.num 2])])).fst.Pairwise
      (fun a b => ∀ r : EmailRecord, r ∈ a.snd → r ∉ b.snd) :=
  categorize_disjoint_ids_no_double_insert [rec_a, rec_b]
    [("A", [JsonVal.num 1]), ("B", [JsonVal.num 2])] (by decide) (by decide)

/-- C4: after the fetch-and-count pass, every emitted record's
sender_count equals the number of records in the batch whose stripped
sender equals its own. -/
theorem sender_count_matches_batch (msgs : List GmailMsg) (r : EmailRecord)
    (hr : r ∈ extract_emails msgs) :
    r.sender_count = (extract_emails msgs).countP (fun e => e.from_ = r.from_) := by
  unfold extract_emails at hr ⊢
  rcases List.mem_map.mp hr with ⟨e, he, hre⟩
  rw [← hre]
  rw [fetch_pass_snd msgs (fun _ => 0) e.from_]
  simp only [List.countP_map, Nat.zero_add]
  rfl

/-- Scenario input for C4: two messages from "Alice <a@x.com>". -/
def aliceMsgs : List GmailMsg :=
  [ { msgId := "m1",
      fetched := some { headers := [("From", "Alice <a@x.com>")], snippet := "" } }
  , { msgId := "m2",
      fetched := some { headers := [("From", "Alice <a@x.com>")], snippet := "" } } ]

/-- The first record the fetch pass emits for `aliceMsgs`: stripped sender
"Alice", sender_count 2. -/
def aliceRec : EmailRecord :=
  { id := "m1", from_ := "Alice", subject := "(No Subject)", snippet := "",
    sender_count := 2 }

/-- C4 witness: both Alice messages strip to sender "Alice" and get
sender_count 2, the number of batch records with that stripped sender. -/
theorem sender_count_matches_batch_witness :
    aliceRec ∈ extract_emails aliceMsgs ∧
      aliceRec.sender_count =
        (extract_emails aliceMsgs).countP (fun e => e.from_ = aliceRec.from_) :=
  ⟨by decide, sender_count_matches_batch aliceMsgs aliceRec (by decide)⟩

/-- The identifiers of the extracted records are exactly those of the
successfully fetched messages, in provider order. -/
theorem extract_emails_ids (msgs : List GmailMsg) :
    (extract_emails msgs).map (fun r => r.id) =
      (msgs.filter (fun m => m.fetched.isSome)).map (fun m => m.msgId) := by
  have h1 : (extract_emails msgs).map (fun r => r.id) =
      ((fetch_pass msgs (fun _ => 0)).fst).map (fun r => r.id) := by
    simp only [extract_emails, List.map_map]
    rfl
  rw [h1, fetch_pass_fst msgs (fun _ => 0)]
  clear h1
  induction msgs with
  | nil => rfl
  | cons m rest ih =>
      cases hm : m.fetched with
      | none => simpa [List.filterMap_cons, List.filter_cons, hm] using ih
      | some d => simpa [List.filterMap_cons, List.filter_cons, hm, mk_record] using ih

/-- C8: a message whose fetch raised contributes no record while the
remaining messages still appear, in order; under distinct provider ids, the
failing message's identifier appears in no emitted record. -/
theorem fetch_failure_skips_message (msgs : List GmailMsg) :
    ((extract_emails msgs).map (fun r => r.id) =
      (msgs.filter (fun m => m.fetched.isSome)).map (fun m => m.msgId))
    ∧ ∀ m ∈ msgs, m.fetched = none →
        (msgs.map (fun m2 => m2.msgId)).Nodup →
        ∀ r ∈ extract_emails msgs, r.id ≠ m.msgId := by
  refine ⟨extract_emails_ids msgs, ?_⟩
  intro m hm hnone hnd r hr heq
  have hid : r.id ∈ (extract_emails msgs).map (fun r2 => r2.id) :=
    List.mem_map_of_mem (fun r2 => r2.id) hr
  rw [extract_emails_ids msgs] at hid
  rcases List.mem_map.mp hid with ⟨m2, hm2, hm2id⟩
  rcases List.mem_filter.mp hm2 with ⟨hm2mem, hm2some⟩
  have : m2 = m :=
    List.inj_on_of_nodup_map hnd hm2mem hm (by rw [hm2id, heq])
  rw [this, hnone] at hm2some
  cases hm2some

/-- Scenario input for C8: five messages, the third of which fails to
fetch. -/
def fiveMsgs : List GmailMsg :=
  [ { msgId := "m1", fetched := some { headers := [("From", "A")], snippet := "" } }
  , { msgId := "m2", fetched := some { headers := [("From", "B")], snippet := "" } }
  , { msgId := "m3", fetched := none }
  , { msgId := "m4", fetched := some { headers := [("From", "C")], snippet := "" } }
  , { msgId := "m5", fetched := some { headers := [("From", "D")], snippet := "" } } ]

/-- C8 witness: one of five fetches fails, so exactly the other four
records are returned and the failing identifier "m3" appears in none. -/
theorem fetch_failure_skips_message_witness :
    ((extract_emails fiveMsgs).map (fun r => r.id) = ["m1", "m2", "m4", "m5"])
    ∧ ∀ r ∈ extract_emails fiveMsgs, r.id ≠ "m3" :=
  ⟨((fetch_failure_skips_message fiveMsgs).1).trans (by decide),
   fun r hr =>
     (fetch_failure_skips_message fiveMsgs).2 { msgId := "m3", fetched := none }
       (by decide) rfl (by decide) r hr⟩

/-- When no header carries the requested name, the generator's default is
returned. -/
theorem findHeader_default (headers : List (String × String)) (name d0 : String)
    (h : ∀ p ∈ headers, p.fst ≠ name) : findHeader headers name d0 = d0 := by
  have hnone : headers.find? (fun h2 => h2.fst = name) = none :=
    List.find?_eq_none.mpr (fun p hp => by simpa using h p hp)
  simp [findHeader, hnone]

/-- C10: a fetched message whose metadata lacks the From header is not
skipped: its record is still emitted with sender defaulting to "Unknown"
(and, when the Subject header is also absent, subject defaulting to
"(No Subject)"). -/
theorem missing_header_defaults (msgs : List GmailMsg) (m : GmailMsg) (d : RawData)
    (hm : m ∈ msgs) (hf : m.fetched = some d)
    (hFrom : ∀ p ∈ d.headers, p.fst ≠ "From") :
    ∃ r ∈ extract_emails msgs, r.id = m.msgId ∧ r.from_ = "Unknown" ∧
      ((∀ p ∈ d.headers, p.fst ≠ "Subject") → r.subject = "(No Subject)") := by
  have hbase : mk_record m d ∈ (fetch_pass msgs (fun _ => 0)).fst := by
    rw [fetch_pass_fst msgs (fun _ => 0)]
    exact List.mem_filterMap.mpr ⟨m, hm, by rw [hf]; rfl⟩
  refine ⟨{ mk_record m d with
      sender_count := (fetch_pass msgs (fun _ => 0)).snd (mk_record m d).from_ }, ?_, rfl, ?_, ?_⟩
  · unfold extract_emails
    exact List.mem_map_of_mem _ hbase
  · show strip_sender (findHeader d.headers "From" "Unknown") = "Unknown"
    rw [findHeader_default d.headers "From" "Unknown" hFrom]
    decide
  · intro hSubj
    show findHeader d.headers "Subject" "(No Subject)" = "(No Subject)"
    exact findHeader_default d.headers "Subject" "(No Subject)" hSubj

/-- Scenario input for C10: one message whose metadata has neither a From
nor a Subject header. -/
def headerlessMsgs : List GmailMsg :=
  [ { msgId := "m9", fetched := some { headers := [("X-Other", "y")], snippet := "s" } } ]

/-- C10 witness: the headerless message is still emitted, with sender
"Unknown" and subject "(No Subject)". -/
theorem missing_header_defaults_witness :
    ∃ r ∈ extract_emails headerlessMsgs, r.id = "m9" ∧ r.from_ = "Unknown" ∧
      ((∀ p ∈ (RawData.mk [("X-Other", "y")] "s").headers, p.fst ≠ "Subject") →
        r.subject = "(No Subject)") :=
  missing_header_defaults headerlessMsgs
    { msgId := "m9", fetched := some { headers := [("X-Other", "y")], snippet := "s" } }
    { headers := [("X-Other", "y")], snippet := "s" }
    (by decide) rfl (by decide)

/-- C9: the retrieval endpoint always reports status "success" whatever the
stored result is; responses depend only on the stored assignment, and a
failed categorization stores the same empty assignment an initial or
genuinely empty run stores — indistinguishable to the caller. -/
theorem result_endpoint_always_success :
    (∀ s : UserSession, (get_result s).status = "success")
    ∧ (∀ s1 s2 : UserSession, s1.last_result = s2.last_result →
        get_result s1 = get_result s2)
    ∧ ∀ emails : List EmailRecord,
        get_result { last_result := (categorize_with_ai emails ModelResult.raises).fst }
          = get_result { last_result := [] } := by
  refine ⟨fun s => rfl, fun s1 s2 h => by simp [get_result, h], fun emails => ?_⟩
  have hfst : (categorize_with_ai emails ModelResult.raises).fst = [] := by
    unfold categorize_with_ai
    by_cases he : emails.isEmpty <;> simp [he]
  simp [get_result, hfst]

/-- C9 witness: a stored result read back has status "success", and equal
stored assignments give equal responses. -/
theorem result_endpoint_always_success_witness :
    (get_result { last_result := [("A", [rec_a])] }).status = "success"
    ∧ get_result { last_result := [] } = get_result { last_result := [] } :=
  ⟨result_endpoint_always_success.1 { last_result := [("A", [rec_a])] },
   result_endpoint_always_success.2.1 { last_result := [] } { last_result := [] } rfl⟩
